import Mathlib

/-!
Verification of the Sobel-filter repository (spatial 2-D engine in
src/main.cpp, temporal 3-D engine and frame window in
archive/Version_7/src/main.cpp).

The grayscale raster is modelled as dimensions plus a sample function;
pixel reads go through an Option-returning bounds-checked lookup,
mirroring cv::Mat::at.  All float accumulations in the source are sums
of products of 8-bit samples with small integer kernel coefficients,
whose partial sums stay far below 2^24, so every float operation is
exact and the gradients embed faithfully as integers.  Magnitude and
Theta are real-valued (sqrt and atan2).
-/

namespace Sobel

/-- A single-channel 8-bit raster: cv::Mat of type CV_8U.  Sample access
outside the stated bounds never occurs in verified code paths. -/
structure Raster where
  rows : Nat
  cols : Nat
  px : Int → Int → Nat

/-- Bounds-checked pixel read, mirroring gray.at<uchar>(y, x): some value
when the index pair is inside the raster, none otherwise. -/
def Raster.at? (r : Raster) (y x : Int) : Option Nat :=
  if 0 ≤ y ∧ y < (r.rows : Int) ∧ 0 ≤ x ∧ x < (r.cols : Int) then some (r.px y x)
  else none

/-- Pixel value as an integer, the form in which the worker consumes it. -/
def pixelVal (r : Raster) (y x : Int) : Int :=
  ((r.at? y x).getD 0 : Nat)

/-- Sobel kernel X, from main.cpp lines 142-146. -/
def kx : List (List Int) := [[-1, 0, 1], [-2, 0, 2], [-1, 0, 1]]

/-- Sobel kernel Y, from main.cpp lines 148-152. -/
def ky : List (List Int) := [[-1, -2, -1], [0, 0, 0], [1, 2, 1]]

/-- Table lookup k[j][i] for the hardcoded 3x3 kernels. -/
def tableAt (k : List (List Int)) (j i : Int) : Int :=
  (k.getD j.toNat []).getD i.toNat 0

/-- The neighbor offsets -1, 0, 1 traversed by the convolution loops. -/
def offsets : List Int := [-1, 0, 1]

/-- Accumulation of sumX in SobelWorker: sum over j, i of
p(y+j, x+i) * kx[j+1][i+1]. -/
def sumXAt (r : Raster) (y x : Int) : Int :=
  offsets.foldl (fun acc j =>
    offsets.foldl (fun acc i =>
      acc + pixelVal r (y + j) (x + i) * tableAt kx (j + 1) (i + 1)) acc) 0

/-- Accumulation of sumY in SobelWorker: sum over j, i of
p(y+j, x+i) * ky[j+1][i+1]. -/
def sumYAt (r : Raster) (y x : Int) : Int :=
  offsets.foldl (fun acc j =>
    offsets.foldl (fun acc i =>
      acc + pixelVal r (y + j) (x + i) * tableAt ky (j + 1) (i + 1)) acc) 0

/-- Region bounds of one worker: [x0, x1) x [y0, y1), from SobelTask. -/
structure SobelTask where
  x0 : Int
  x1 : Int
  y0 : Int
  y1 : Int
deriving DecidableEq

/-- The four float output matrices gx, gy, mag, theta. -/
@[ext]
structure Fields where
  gx : Int → Int → Int
  gy : Int → Int → Int
  mag : Int → Int → ℝ
  theta : Int → Int → ℝ

/-- The zero-initialized output matrices, cv::Mat(..., cv::Scalar(0)). -/
def initFields : Fields :=
  { gx := fun _ _ => 0, gy := fun _ _ => 0, mag := fun _ _ => 0, theta := fun _ _ => 0 }

/-- Point update of a two-index grid, modelling mat.at<float>(y, x) = v. -/
def update2 {α : Type} (f : Int → Int → α) (y x : Int) (v : α) : Int → Int → α :=
  fun y' x' => if y' = y ∧ x' = x then v else f y' x'

/-- Four-quadrant atan2 as computed by std::atan2(y, x), radians in (-pi, pi]. -/
noncomputable def atan2 (yv xv : ℝ) : ℝ :=
  if 0 < xv then Real.arctan (yv / xv)
  else if xv < 0 ∧ 0 ≤ yv then Real.arctan (yv / xv) + Real.pi
  else if xv < 0 ∧ yv < 0 then Real.arctan (yv / xv) - Real.pi
  else if xv = 0 ∧ 0 < yv then Real.pi / 2
  else if xv = 0 ∧ yv < 0 then -(Real.pi / 2)
  else 0

/-- One iteration of the worker's inner loop body at pixel (y, x):
writes gx, gy, magnitude and direction, main.cpp lines 59-74. -/
noncomputable def writeCell (r : Raster) (f : Fields) (c : Int × Int) : Fields :=
  let y := c.1
  let x := c.2
  let sumX := sumXAt r y x
  let sumY := sumYAt r y x
  { gx := update2 f.gx y x sumX
    gy := update2 f.gy y x sumY
    mag := update2 f.mag y x (Real.sqrt ((sumX : ℝ) * sumX + (sumY : ℝ) * sumY))
    theta := update2 f.theta y x (atan2 (sumY : ℝ) (sumX : ℝ)) }

/-- The integers a, a+1, ..., b-1: iteration space of for (v = a; v < b; v++). -/
def intRange (a b : Int) : List Int :=
  (List.range (b - a).toNat).map (fun (k : Nat) => a + (k : Int))

/-- Row-major enumeration of a rectangle of cells, matching the nested
for (y ...) for (x ...) traversal order. -/
def prodCells (ys xs : List Int) : List (Int × Int) :=
  ys.foldr (fun y acc => (xs.map (fun x => (y, x))) ++ acc) []

/-- SobelWorker, main.cpp lines 35-79: clamp the region to the safe
convolution area, then run the manual Sobel convolution over it. -/
noncomputable def SobelWorker (r : Raster) (t : SobelTask) (f : Fields) : Fields :=
  let startY := max t.y0 1
  let endY := min t.y1 ((r.rows : Int) - 1)
  let startX := max t.x0 1
  let endX := min t.x1 ((r.cols : Int) - 1)
  (prodCells (intRange startY endY) (intRange startX endX)).foldl (writeCell r) f

/-- Membership in the clamped iteration space of a worker. -/
def inClamped (r : Raster) (t : SobelTask) (y x : Int) : Prop :=
  max t.y0 1 ≤ y ∧ y < min t.y1 ((r.rows : Int) - 1) ∧
  max t.x0 1 ≤ x ∧ x < min t.x1 ((r.cols : Int) - 1)

instance (r : Raster) (t : SobelTask) (y x : Int) : Decidable (inClamped r t y x) := by
  unfold inClamped; infer_instance

/-- Running a list of workers in sequence over the shared output fields.
Worker writes are pairwise disjoint in the source, so the sequential
order models any interleaving. -/
noncomputable def runTasks (r : Raster) (ts : List SobelTask) (f : Fields) : Fields :=
  ts.foldl (fun f t => SobelWorker r t f) f

/-- The 4-quadrant partition of main.cpp lines 194-206: split at
midX = cols/2, midY = rows/2. -/
def quadTasks (r : Raster) : List SobelTask :=
  [⟨0, ((r.cols / 2 : Nat) : Int), 0, ((r.rows / 2 : Nat) : Int)⟩,
   ⟨((r.cols / 2 : Nat) : Int), (r.cols : Int), 0, ((r.rows / 2 : Nat) : Int)⟩,
   ⟨0, ((r.cols / 2 : Nat) : Int), ((r.rows / 2 : Nat) : Int), (r.rows : Int)⟩,
   ⟨((r.cols / 2 : Nat) : Int), (r.cols : Int), ((r.rows / 2 : Nat) : Int), (r.rows : Int)⟩]

/-- A single region covering the whole interior rectangle. -/
def interiorTask (r : Raster) : SobelTask :=
  ⟨1, (r.cols : Int) - 1, 1, (r.rows : Int) - 1⟩

/-- The spatial gradient computation as the program runs it: zero-filled
fields, then the 4-quadrant workers. -/
noncomputable def computeSpatial (r : Raster) : Fields :=
  runTasks r (quadTasks r) initFields

/-- The same computation with one worker whose region is the whole interior. -/
noncomputable def computeSpatial1 (r : Raster) : Fields :=
  runTasks r [interiorTask r] initFields

/-- Squaring helper, Version_7 main.cpp line 19. -/
def sqr (v : ℝ) : ℝ := v * v

/-- Smoothing coefficients of the separable 3-D Sobel, Version_7 line 68. -/
def smooth : List Int := [1, 2, 1]

/-- Derivative coefficients of the separable 3-D Sobel, Version_7 line 69. -/
def deriv : List Int := [-1, 0, 1]

/-- Coefficient lookup v[k] for the two 3-element vectors. -/
def coeffAt (v : List Int) (k : Int) : Int :=
  v.getD k.toNat 0

/-- Sliding window of three consecutive grayscale frames prev, curr, next. -/
structure FrameWindow where
  prev : Raster
  curr : Raster
  next : Raster

/-- Frame selection by temporal offset, Version_7 lines 127-129:
dt = -1 reads prev, dt = 0 reads curr, dt = 1 reads next. -/
def frameAt (w : FrameWindow) (dt : Int) : Raster :=
  if dt = -1 then w.prev else if dt = 0 then w.curr else w.next

/-- Accumulation of sumX in the 3-D convolution, Version_7 line 147:
derivative in x, smoothing in y and t. -/
def sumX3At (w : FrameWindow) (y x : Int) : Int :=
  offsets.foldl (fun acc dt =>
    offsets.foldl (fun acc dy =>
      offsets.foldl (fun acc dx =>
        acc + pixelVal (frameAt w dt) (y + dy) (x + dx) *
          (coeffAt deriv (dx + 1) * coeffAt smooth (dy + 1) * coeffAt smooth (dt + 1)))
        acc) acc) 0

/-- Accumulation of sumY in the 3-D convolution, Version_7 line 150:
derivative in y, smoothing in x and t. -/
def sumY3At (w : FrameWindow) (y x : Int) : Int :=
  offsets.foldl (fun acc dt =>
    offsets.foldl (fun acc dy =>
      offsets.foldl (fun acc dx =>
        acc + pixelVal (frameAt w dt) (y + dy) (x + dx) *
          (coeffAt smooth (dx + 1) * coeffAt deriv (dy + 1) * coeffAt smooth (dt + 1)))
        acc) acc) 0

/-- Accumulation of sumT in the 3-D convolution, Version_7 line 153:
derivative in t, smoothing in x and y. -/
def sumT3At (w : FrameWindow) (y x : Int) : Int :=
  offsets.foldl (fun acc dt =>
    offsets.foldl (fun acc dy =>
      offsets.foldl (fun acc dx =>
        acc + pixelVal (frameAt w dt) (y + dy) (x + dx) *
          (coeffAt smooth (dx + 1) * coeffAt smooth (dy + 1) * coeffAt deriv (dt + 1)))
        acc) acc) 0

/-- The temporal engine's four float output matrices gx, gy, gt, mag3d. -/
@[ext]
structure TFields where
  gx : Int → Int → Int
  gy : Int → Int → Int
  gt : Int → Int → Int
  mag : Int → Int → ℝ

/-- Zero-initialized temporal output matrices, Version_7 lines 108-111. -/
def initTFields : TFields :=
  { gx := fun _ _ => 0, gy := fun _ _ => 0, gt := fun _ _ => 0, mag := fun _ _ => 0 }

/-- One iteration of the temporal loop body at pixel (y, x),
Version_7 lines 158-162. -/
noncomputable def writeCellT (w : FrameWindow) (f : TFields) (c : Int × Int) : TFields :=
  let y := c.1
  let x := c.2
  let sumX := sumX3At w y x
  let sumY := sumY3At w y x
  let sumT := sumT3At w y x
  { gx := update2 f.gx y x sumX
    gy := update2 f.gy y x sumY
    gt := update2 f.gt y x sumT
    mag := update2 f.mag y x (Real.sqrt (sqr (sumX : ℝ) + sqr (sumY : ℝ) + sqr (sumT : ℝ))) }

/-- The temporal gradient computation, Version_7 lines 108-164:
zero-filled fields, then the single-threaded interior loop
for (y = 1; y < rows-1) for (x = 1; x < cols-1). -/
noncomputable def computeTemporal (w : FrameWindow) : TFields :=
  (prodCells (intRange 1 ((w.curr.rows : Int) - 1)) (intRange 1 ((w.curr.cols : Int) - 1))).foldl
    (writeCellT w) initTFields

/-- The error taxonomy of the specification. -/
inductive SobelError where
  | InvalidDimensions : SobelError
  | InsufficientFrames : SobelError
  | WorkerStartFailure : SobelError
deriving DecidableEq

/-- Priming the frame window, Version_7 lines 89-96: pull three frames
from the source stream; if fewer than three can be pulled, fail. -/
def prime (frames : List Raster) : Except SobelError FrameWindow :=
  match frames with
  | a :: b :: c :: _ => Except.ok ⟨a, b, c⟩
  | _ => Except.error SobelError.InsufficientFrames

/-- Advancing the window, Version_7 lines 200-204: prev takes curr,
curr takes next, and the newly read frame becomes next. -/
def advance (w : FrameWindow) (n : Raster) : FrameWindow :=
  ⟨w.curr, w.next, n⟩

/-- The window after k advances from an initial priming over the frame
source f: primed at frames 0,1,2, and the i-th advance supplies frame i+3. -/
def advanceK (f : Nat → Raster) : Nat → FrameWindow
  | 0 => ⟨f 0, f 1, f 2⟩
  | k + 1 => advance (advanceK f k) (f (k + 3))

/-- Modelled from the spec: the min-max normalizer (spec section 4.6).
The actual rescale lives in the external library call cv::normalize
(main.cpp lines 238-247, Version_7 lines 169-174), not in this
repository; the spec defines it as a linear min-to-0, max-to-255 rescale
with an explicit all-zeros branch when min equals max. -/
noncomputable def normalize (samples : List ℝ) : List ℝ :=
  let mn := samples.foldl min (samples.headD 0)
  let mx := samples.foldl max (samples.headD 0)
  if mn = mx then samples.map (fun _ => 0)
  else samples.map (fun v => (v - mn) * 255 / (mx - mn))

/-- The literal 3x3 test raster whose every row is 0, 128, 255. -/
def testRaster : Raster :=
  ⟨3, 3, fun _ x => if x ≤ 0 then 0 else if x = 1 then 128 else 255⟩

/-- A 2x2 raster, below the 3x3 minimum in both axes. -/
def smallRaster : Raster :=
  ⟨2, 2, fun _ _ => 7⟩

/-- A frame window of three copies of the test raster. -/
def testWindow : FrameWindow :=
  ⟨testRaster, testRaster, testRaster⟩

/-- Projection of the gx grid at a cell. -/
def projGx : Fields → Int × Int → Int := fun s c => s.gx c.1 c.2

/-- Projection of the gy grid at a cell. -/
def projGy : Fields → Int × Int → Int := fun s c => s.gy c.1 c.2

/-- Projection of the magnitude grid at a cell. -/
noncomputable def projMag : Fields → Int × Int → ℝ := fun s c => s.mag c.1 c.2

/-- Projection of the direction grid at a cell. -/
noncomputable def projTheta : Fields → Int × Int → ℝ := fun s c => s.theta c.1 c.2

/-- The value the worker stores into gx at a cell. -/
def valGx (r : Raster) : Int × Int → Int := fun c => sumXAt r c.1 c.2

/-- The value the worker stores into gy at a cell. -/
def valGy (r : Raster) : Int × Int → Int := fun c => sumYAt r c.1 c.2

/-- The value the worker stores into mag at a cell. -/
noncomputable def valMag (r : Raster) : Int × Int → ℝ := fun c =>
  Real.sqrt ((sumXAt r c.1 c.2 : ℝ) * (sumXAt r c.1 c.2 : ℝ) +
    (sumYAt r c.1 c.2 : ℝ) * (sumYAt r c.1 c.2 : ℝ))

/-- The value the worker stores into theta at a cell. -/
noncomputable def valTheta (r : Raster) : Int × Int → ℝ := fun c =>
  atan2 (sumYAt r c.1 c.2 : ℝ) (sumXAt r c.1 c.2 : ℝ)

/-- Projection of the temporal gx grid at a cell. -/
def projTGx : TFields → Int × Int → Int := fun s c => s.gx c.1 c.2

/-- Projection of the temporal gy grid at a cell. -/
def projTGy : TFields → Int × Int → Int := fun s c => s.gy c.1 c.2

/-- Projection of the temporal gt grid at a cell. -/
def projTGt : TFields → Int × Int → Int := fun s c => s.gt c.1 c.2

/-- Projection of the temporal magnitude grid at a cell. -/
noncomputable def projTMag : TFields → Int × Int → ℝ := fun s c => s.mag c.1 c.2

/-- The value the temporal loop stores into gx at a cell. -/
def valTGx (w : FrameWindow) : Int × Int → Int := fun c => sumX3At w c.1 c.2

/-- The value the temporal loop stores into gy at a cell. -/
def valTGy (w : FrameWindow) : Int × Int → Int := fun c => sumY3At w c.1 c.2

/-- The value the temporal loop stores into gt at a cell. -/
def valTGt (w : FrameWindow) : Int × Int → Int := fun c => sumT3At w c.1 c.2

/-- The value the temporal loop stores into mag at a cell. -/
noncomputable def valTMag (w : FrameWindow) : Int × Int → ℝ := fun c =>
  Real.sqrt (sqr (sumX3At w c.1 c.2 : ℝ) + sqr (sumY3At w c.1 c.2 : ℝ) +
    sqr (sumT3At w c.1 c.2 : ℝ))

theorem mem_intRange {a b v : Int} : v ∈ intRange a b ↔ a ≤ v ∧ v < b := by
  unfold intRange
  simp only [List.mem_map, List.mem_range]
  constructor
  · rintro ⟨k, hk, rfl⟩
    omega
  · rintro ⟨h1, h2⟩
    exact ⟨(v - a).toNat, by omega, by omega⟩

theorem mem_prodCells {ys xs : List Int} {c : Int × Int} :
    c ∈ prodCells ys xs ↔ c.1 ∈ ys ∧ c.2 ∈ xs := by
  induction ys with
  | nil => simp [prodCells]
  | cons y ys ih =>
    show c ∈ (xs.map (fun x => (y, x))) ++ prodCells ys xs ↔ _
    rw [List.mem_append, ih]
    simp only [List.mem_map, List.mem_cons]
    constructor
    · rintro (⟨x, hx, rfl⟩ | ⟨h1, h2⟩)
      · exact ⟨Or.inl rfl, hx⟩
      · exact ⟨Or.inr h1, h2⟩
    · rintro ⟨h1 | h1, h2⟩
      · left
        exact ⟨c.2, h2, by rw [← h1]⟩
      · right
        exact ⟨h1, h2⟩

theorem foldl_write_not {σ β α : Type} [DecidableEq β] (step : σ → β → σ)
    (proj : σ → β → α) (val : β → α)
    (hw : ∀ s b c, proj (step s b) c = if c = b then val b else proj s c) :
    ∀ (l : List β) (s : σ) (c : β), c ∉ l → proj (l.foldl step s) c = proj s c := by
  intro l
  induction l with
  | nil =>
    intro s c _
    rfl
  | cons b l ih =>
    intro s c hc
    have hcb : c ≠ b := fun h => hc (by rw [h]; exact List.mem_cons_self b l)
    have hcl : c ∉ l := fun h => hc (List.mem_cons_of_mem b h)
    rw [List.foldl_cons, ih _ _ hcl, hw, if_neg hcb]

theorem foldl_write_mem {σ β α : Type} [DecidableEq β] (step : σ → β → σ)
    (proj : σ → β → α) (val : β → α)
    (hw : ∀ s b c, proj (step s b) c = if c = b then val b else proj s c) :
    ∀ (l : List β) (s : σ) (c : β), c ∈ l → proj (l.foldl step s) c = val c := by
  intro l
  induction l with
  | nil =>
    intro s c hc
    exact absurd hc (List.not_mem_nil c)
  | cons b l ih =>
    intro s c hc
    by_cases hcl : c ∈ l
    · rw [List.foldl_cons, ih _ _ hcl]
    · have hcb : c = b := by
        rcases List.mem_cons.mp hc with h | h
        · exact h
        · exact absurd h hcl
      rw [List.foldl_cons, foldl_write_not step proj val hw l _ c hcl, hw, if_pos hcb, hcb]

theorem writeCell_gx (r : Raster) (s : Fields) (b c : Int × Int) :
    projGx (writeCell r s b) c = if c = b then valGx r b else projGx s c := by
  by_cases h : c = b
  · subst h
    simp [projGx, valGx, writeCell, update2]
  · have h2 : ¬ (c.1 = b.1 ∧ c.2 = b.2) := fun hc => h (Prod.ext_iff.mpr hc)
    simp [projGx, writeCell, update2, h, h2]

theorem writeCell_gy (r : Raster) (s : Fields) (b c : Int × Int) :
    projGy (writeCell r s b) c = if c = b then valGy r b else projGy s c := by
  by_cases h : c = b
  · subst h
    simp [projGy, valGy, writeCell, update2]
  · have h2 : ¬ (c.1 = b.1 ∧ c.2 = b.2) := fun hc => h (Prod.ext_iff.mpr hc)
    simp [projGy, writeCell, update2, h, h2]

theorem writeCell_mag (r : Raster) (s : Fields) (b c : Int × Int) :
    projMag (writeCell r s b) c = if c = b then valMag r b else projMag s c := by
  by_cases h : c = b
  · subst h
    simp [projMag, valMag, writeCell, update2]
  · have h2 : ¬ (c.1 = b.1 ∧ c.2 = b.2) := fun hc => h (Prod.ext_iff.mpr hc)
    simp [projMag, writeCell, update2, h, h2]

theorem writeCell_theta (r : Raster) (s : Fields) (b c : Int × Int) :
    projTheta (writeCell r s b) c = if c = b then valTheta r b else projTheta s c := by
  by_cases h : c = b
  · subst h
    simp [projTheta, valTheta, writeCell, update2]
  · have h2 : ¬ (c.1 = b.1 ∧ c.2 = b.2) := fun hc => h (Prod.ext_iff.mpr hc)
    simp [projTheta, writeCell, update2, h, h2]

theorem writeCellT_gx (w : FrameWindow) (s : TFields) (b c : Int × Int) :
    projTGx (writeCellT w s b) c = if c = b then valTGx w b else projTGx s c := by
  by_cases h : c = b
  · subst h
    simp [projTGx, valTGx, writeCellT, update2]
  · have h2 : ¬ (c.1 = b.1 ∧ c.2 = b.2) := fun hc => h (Prod.ext_iff.mpr hc)
    simp [projTGx, writeCellT, update2, h, h2]

theorem writeCellT_gy (w : FrameWindow) (s : TFields) (b c : Int × Int) :
    projTGy (writeCellT w s b) c = if c = b then valTGy w b else projTGy s c := by
  by_cases h : c = b
  · subst h
    simp [projTGy, valTGy, writeCellT, update2]
  · have h2 : ¬ (c.1 = b.1 ∧ c.2 = b.2) := fun hc => h (Prod.ext_iff.mpr hc)
    simp [projTGy, writeCellT, update2, h, h2]

theorem writeCellT_gt (w : FrameWindow) (s : TFields) (b c : Int × Int) :
    projTGt (writeCellT w s b) c = if c = b then valTGt w b else projTGt s c := by
  by_cases h : c = b
  · subst h
    simp [projTGt, valTGt, writeCellT, update2]
  · have h2 : ¬ (c.1 = b.1 ∧ c.2 = b.2) := fun hc => h (Prod.ext_iff.mpr hc)
    simp [projTGt, writeCellT, update2, h, h2]

theorem writeCellT_mag (w : FrameWindow) (s : TFields) (b c : Int × Int) :
    projTMag (writeCellT w s b) c = if c = b then valTMag w b else projTMag s c := by
  by_cases h : c = b
  · subst h
    simp [projTMag, valTMag, writeCellT, update2]
  · have h2 : ¬ (c.1 = b.1 ∧ c.2 = b.2) := fun hc => h (Prod.ext_iff.mpr hc)
    simp [projTMag, writeCellT, update2, h, h2]

theorem SobelWorker_proj_mem {α : Type} (r : Raster) (proj : Fields → Int × Int → α)
    (val : Int × Int → α)
    (hw : ∀ s b c, proj (writeCell r s b) c = if c = b then val b else proj s c)
    (t : SobelTask) (f : Fields) (y x : Int) (h : inClamped r t y x) :
    proj (SobelWorker r t f) (y, x) = val (y, x) := by
  obtain ⟨hy1, hy2, hx1, hx2⟩ := h
  exact foldl_write_mem (writeCell r) proj val hw _ f (y, x)
    (mem_prodCells.mpr ⟨mem_intRange.mpr ⟨hy1, hy2⟩, mem_intRange.mpr ⟨hx1, hx2⟩⟩)

theorem SobelWorker_proj_not {α : Type} (r : Raster) (proj : Fields → Int × Int → α)
    (val : Int × Int → α)
    (hw : ∀ s b c, proj (writeCell r s b) c = if c = b then val b else proj s c)
    (t : SobelTask) (f : Fields) (y x : Int) (h : ¬ inClamped r t y x) :
    proj (SobelWorker r t f) (y, x) = proj f (y, x) := by
  refine foldl_write_not (writeCell r) proj val hw _ f (y, x) ?_
  intro hm
  obtain ⟨hy, hx⟩ := mem_prodCells.mp hm
  obtain ⟨hy1, hy2⟩ := mem_intRange.mp hy
  obtain ⟨hx1, hx2⟩ := mem_intRange.mp hx
  exact h ⟨hy1, hy2, hx1, hx2⟩

theorem runTasks_proj_not {α : Type} (r : Raster) (proj : Fields → Int × Int → α)
    (val : Int × Int → α)
    (hw : ∀ s b c, proj (writeCell r s b) c = if c = b then val b else proj s c) :
    ∀ (ts : List SobelTask) (f : Fields) (y x : Int),
      (¬ ∃ t ∈ ts, inClamped r t y x) → proj (runTasks r ts f) (y, x) = proj f (y, x) := by
  intro ts
  induction ts with
  | nil =>
    intro f y x _
    rfl
  | cons t ts ih =>
    intro f y x h
    have h1 : ¬ inClamped r t y x := fun hcl => h ⟨t, List.mem_cons_self t ts, hcl⟩
    have h2 : ¬ ∃ u ∈ ts, inClamped r u y x :=
      fun ⟨u, hu, hcl⟩ => h ⟨u, List.mem_cons_of_mem t hu, hcl⟩
    calc proj (runTasks r ts (SobelWorker r t f)) (y, x)
        = proj (SobelWorker r t f) (y, x) := ih _ y x h2
      _ = proj f (y, x) := SobelWorker_proj_not r proj val hw t f y x h1

theorem runTasks_proj_mem {α : Type} (r : Raster) (proj : Fields → Int × Int → α)
    (val : Int × Int → α)
    (hw : ∀ s b c, proj (writeCell r s b) c = if c = b then val b else proj s c) :
    ∀ (ts : List SobelTask) (f : Fields) (y x : Int),
      (∃ t ∈ ts, inClamped r t y x) → proj (runTasks r ts f) (y, x) = val (y, x) := by
  intro ts
  induction ts with
  | nil =>
    intro f y x h
    obtain ⟨t, ht, _⟩ := h
    exact absurd ht (List.not_mem_nil t)
  | cons t ts ih =>
    intro f y x h
    by_cases h2 : ∃ u ∈ ts, inClamped r u y x
    · exact ih _ y x h2
    · have h1 : inClamped r t y x := by
        obtain ⟨u, hu, hcl⟩ := h
        rcases List.mem_cons.mp hu with rfl | hm
        · exact hcl
        · exact absurd ⟨u, hm, hcl⟩ h2
      calc proj (runTasks r ts (SobelWorker r t f)) (y, x)
          = proj (SobelWorker r t f) (y, x) := runTasks_proj_not r proj val hw ts _ y x h2
        _ = val (y, x) := SobelWorker_proj_mem r proj val hw t f y x h1

theorem quad_cover (r : Raster) (hc : 3 ≤ r.cols) (hr : 3 ≤ r.rows) (y x : Int) :
    (∃ t ∈ quadTasks r, inClamped r t y x) ↔ inClamped r (interiorTask r) y x := by
  simp only [quadTasks, List.mem_cons, List.not_mem_nil, or_false, exists_eq_or_imp,
    exists_eq_left, inClamped, interiorTask]
  omega

theorem spatial_proj_eq {α : Type} (r : Raster) (hc : 3 ≤ r.cols) (hr : 3 ≤ r.rows)
    (proj : Fields → Int × Int → α) (val : Int × Int → α)
    (hw : ∀ s b c, proj (writeCell r s b) c = if c = b then val b else proj s c)
    (y x : Int) :
    proj (computeSpatial1 r) (y, x) = proj (computeSpatial r) (y, x) := by
  by_cases hcv : inClamped r (interiorTask r) y x
  · have h1 : ∃ t ∈ [interiorTask r], inClamped r t y x :=
      ⟨interiorTask r, List.mem_singleton.mpr rfl, hcv⟩
    exact (runTasks_proj_mem r proj val hw [interiorTask r] initFields y x h1).trans
      (runTasks_proj_mem r proj val hw (quadTasks r) initFields y x
        ((quad_cover r hc hr y x).mpr hcv)).symm
  · have h1 : ¬ ∃ t ∈ [interiorTask r], inClamped r t y x := by
      rintro ⟨t, ht, hcl⟩
      rw [List.mem_singleton] at ht
      subst ht
      exact hcv hcl
    have h2 : ¬ ∃ t ∈ quadTasks r, inClamped r t y x :=
      fun hex => hcv ((quad_cover r hc hr y x).mp hex)
    exact (runTasks_proj_not r proj val hw [interiorTask r] initFields y x h1).trans
      (runTasks_proj_not r proj val hw (quadTasks r) initFields y x h2).symm

/-- C1: for every raster with width and height at least 3, the spatial
gradient computation run with a single region covering the whole interior
and run with the 4-quadrant partition (split at midX = W/2, midY = H/2,
regions clamped to the interior) produce bit-identical Gx, Gy, Magnitude
and Theta fields. -/
theorem spatial_partition_invariance (r : Raster) (hc : 3 ≤ r.cols) (hr : 3 ≤ r.rows) :
    computeSpatial1 r = computeSpatial r := by
  refine Fields.ext ?_ ?_ ?_ ?_ <;> funext y x
  · exact spatial_proj_eq r hc hr projGx (valGx r) (writeCell_gx r) y x
  · exact spatial_proj_eq r hc hr projGy (valGy r) (writeCell_gy r) y x
  · exact spatial_proj_eq r hc hr projMag (valMag r) (writeCell_mag r) y x
  · exact spatial_proj_eq r hc hr projTheta (valTheta r) (writeCell_theta r) y x

/-- Witness for C1 at the concrete 3x3 test raster. -/
theorem spatial_partition_invariance_witness :
    computeSpatial1 testRaster = computeSpatial testRaster :=
  spatial_partition_invariance testRaster (by decide) (by decide)

/-- C3: for any raster with width and height at least 3, after the spatial
gradient computation every border cell of the Gx, Gy, Magnitude and Theta
fields still holds exactly the zero it was initialized with: no worker
ever writes outside the interior. -/
theorem border_cells_zero (r : Raster) (hc : 3 ≤ r.cols) (hr : 3 ≤ r.rows) (y x : Int)
    (hb : y = 0 ∨ y = (r.rows : Int) - 1 ∨ x = 0 ∨ x = (r.cols : Int) - 1) :
    (computeSpatial r).gx y x = 0 ∧ (computeSpatial r).gy y x = 0 ∧
      (computeSpatial r).mag y x = 0 ∧ (computeSpatial r).theta y x = 0 := by
  have hno : ¬ ∃ t ∈ quadTasks r, inClamped r t y x := by
    rintro ⟨t, -, h1, h2, h3, h4⟩
    omega
  exact ⟨runTasks_proj_not r projGx (valGx r) (writeCell_gx r) (quadTasks r) initFields y x hno,
    runTasks_proj_not r projGy (valGy r) (writeCell_gy r) (quadTasks r) initFields y x hno,
    runTasks_proj_not r projMag (valMag r) (writeCell_mag r) (quadTasks r) initFields y x hno,
    runTasks_proj_not r projTheta (valTheta r) (writeCell_theta r) (quadTasks r) initFields y x hno⟩

/-- Witness for C3 at the concrete 3x3 test raster and the border cell (0, 2). -/
theorem border_cells_zero_witness :
    (computeSpatial testRaster).gx 0 2 = 0 ∧ (computeSpatial testRaster).gy 0 2 = 0 ∧
      (computeSpatial testRaster).mag 0 2 = 0 ∧ (computeSpatial testRaster).theta 0 2 = 0 :=
  border_cells_zero testRaster (by decide) (by decide) 0 2 (by decide)

/-- C2: at every interior cell, the stored Magnitude equals the square
root of the sum of the squared stored gradient axes: sqrt(Gx^2 + Gy^2)
for the spatial engine and sqrt(Gx^2 + Gy^2 + Gt^2) for the temporal
engine, exactly as the embedded arithmetic computes it from the Gx, Gy
(and Gt) values stored at that cell. -/
theorem magnitude_sqrt_invariant (r : Raster) (w : FrameWindow) (y x u v : Int)
    (h1 : 1 ≤ y) (h2 : y ≤ (r.rows : Int) - 2) (h3 : 1 ≤ x) (h4 : x ≤ (r.cols : Int) - 2)
    (h5 : 1 ≤ u) (h6 : u ≤ (w.curr.rows : Int) - 2)
    (h7 : 1 ≤ v) (h8 : v ≤ (w.curr.cols : Int) - 2) :
    (computeSpatial r).mag y x =
      Real.sqrt (((computeSpatial r).gx y x : ℝ) ^ 2 + ((computeSpatial r).gy y x : ℝ) ^ 2) ∧
    (computeTemporal w).mag u v =
      Real.sqrt (((computeTemporal w).gx u v : ℝ) ^ 2 + ((computeTemporal w).gy u v : ℝ) ^ 2 +
        ((computeTemporal w).gt u v : ℝ) ^ 2) := by
  constructor
  · have hex : ∃ t ∈ quadTasks r, inClamped r t y x := by
      refine (quad_cover r (by omega) (by omega) y x).mpr ?_
      simp only [inClamped, interiorTask]
      omega
    have hm := runTasks_proj_mem r projMag (valMag r) (writeCell_mag r)
      (quadTasks r) initFields y x hex
    have hgx := runTasks_proj_mem r projGx (valGx r) (writeCell_gx r)
      (quadTasks r) initFields y x hex
    have hgy := runTasks_proj_mem r projGy (valGy r) (writeCell_gy r)
      (quadTasks r) initFields y x hex
    rw [show (computeSpatial r).mag y x =
          Real.sqrt ((sumXAt r y x : ℝ) * (sumXAt r y x : ℝ) +
            (sumYAt r y x : ℝ) * (sumYAt r y x : ℝ)) from hm,
        show (computeSpatial r).gx y x = sumXAt r y x from hgx,
        show (computeSpatial r).gy y x = sumYAt r y x from hgy]
    congr 1
    ring
  · have hmem : ((u, v) : Int × Int) ∈
        prodCells (intRange 1 ((w.curr.rows : Int) - 1)) (intRange 1 ((w.curr.cols : Int) - 1)) :=
      mem_prodCells.mpr ⟨mem_intRange.mpr ⟨h5, by omega⟩, mem_intRange.mpr ⟨h7, by omega⟩⟩
    have hm := foldl_write_mem (writeCellT w) projTMag (valTMag w) (writeCellT_mag w)
      _ initTFields (u, v) hmem
    have hgx := foldl_write_mem (writeCellT w) projTGx (valTGx w) (writeCellT_gx w)
      _ initTFields (u, v) hmem
    have hgy := foldl_write_mem (writeCellT w) projTGy (valTGy w) (writeCellT_gy w)
      _ initTFields (u, v) hmem
    have hgt := foldl_write_mem (writeCellT w) projTGt (valTGt w) (writeCellT_gt w)
      _ initTFields (u, v) hmem
    rw [show (computeTemporal w).mag u v =
          Real.sqrt (sqr (sumX3At w u v : ℝ) + sqr (sumY3At w u v : ℝ) +
            sqr (sumT3At w u v : ℝ)) from hm,
        show (computeTemporal w).gx u v = sumX3At w u v from hgx,
        show (computeTemporal w).gy u v = sumY3At w u v from hgy,
        show (computeTemporal w).gt u v = sumT3At w u v from hgt]
    simp only [sqr]
    congr 1
    ring

/-- Witness for C2 at the concrete 3x3 test raster and window, cell (1, 1). -/
theorem magnitude_sqrt_invariant_witness :
    (computeSpatial testRaster).mag 1 1 =
      Real.sqrt (((computeSpatial testRaster).gx 1 1 : ℝ) ^ 2 +
        ((computeSpatial testRaster).gy 1 1 : ℝ) ^ 2) ∧
    (computeTemporal testWindow).mag 1 1 =
      Real.sqrt (((computeTemporal testWindow).gx 1 1 : ℝ) ^ 2 +
        ((computeTemporal testWindow).gy 1 1 : ℝ) ^ 2 +
        ((computeTemporal testWindow).gt 1 1 : ℝ) ^ 2) :=
  magnitude_sqrt_invariant testRaster testWindow 1 1 1 1 (by decide) (by decide) (by decide)
    (by decide) (by decide) (by decide) (by decide) (by decide)

/-- C4: the separable-kernel weight, the product of the derivative
coefficient on the output axis and the smoothing coefficient on the other
axis, restricted to 2-D yields exactly the hardcoded Sobel tables: for
all offsets i, j in -1..1, kx[j+1][i+1] = deriv[i+1] * smooth[j+1] and
ky[j+1][i+1] = smooth[i+1] * deriv[j+1]. -/
theorem kernel_tables_separable (i j : Int)
    (hi1 : -1 ≤ i) (hi2 : i ≤ 1) (hj1 : -1 ≤ j) (hj2 : j ≤ 1) :
    tableAt kx (j + 1) (i + 1) = coeffAt deriv (i + 1) * coeffAt smooth (j + 1) ∧
    tableAt ky (j + 1) (i + 1) = coeffAt smooth (i + 1) * coeffAt deriv (j + 1) := by
  have hi : i = -1 ∨ i = 0 ∨ i = 1 := by omega
  have hj : j = -1 ∨ j = 0 ∨ j = 1 := by omega
  rcases hi with rfl | rfl | rfl <;> rcases hj with rfl | rfl | rfl <;> exact ⟨by decide, by decide⟩

/-- Witness for C4 at the offset pair i = -1, j = 1. -/
theorem kernel_tables_separable_witness :
    tableAt kx (1 + 1) (-1 + 1) = coeffAt deriv (-1 + 1) * coeffAt smooth (1 + 1) ∧
    tableAt ky (1 + 1) (-1 + 1) = coeffAt smooth (-1 + 1) * coeffAt deriv (1 + 1) :=
  kernel_tables_separable (-1) 1 (by decide) (by decide) (by decide) (by decide)

/-- C5: on the 3x3 raster whose every row is 0, 128, 255, the spatial
computation at the single interior pixel (1, 1) produces Gx = 1020,
Gy = 0, Magnitude = 1020 and Theta = 0. -/
theorem literal_scenario_3x3 :
    (computeSpatial testRaster).gx 1 1 = 1020 ∧ (computeSpatial testRaster).gy 1 1 = 0 ∧
      (computeSpatial testRaster).mag 1 1 = 1020 ∧ (computeSpatial testRaster).theta 1 1 = 0 := by
  have hex : ∃ t ∈ quadTasks testRaster, inClamped testRaster t 1 1 :=
    ⟨⟨1, 3, 1, 3⟩, by decide, by decide⟩
  have hgx := runTasks_proj_mem testRaster projGx (valGx testRaster) (writeCell_gx testRaster)
    (quadTasks testRaster) initFields 1 1 hex
  have hgy := runTasks_proj_mem testRaster projGy (valGy testRaster) (writeCell_gy testRaster)
    (quadTasks testRaster) initFields 1 1 hex
  have hmag := runTasks_proj_mem testRaster projMag (valMag testRaster) (writeCell_mag testRaster)
    (quadTasks testRaster) initFields 1 1 hex
  have hth := runTasks_proj_mem testRaster projTheta (valTheta testRaster)
    (writeCell_theta testRaster) (quadTasks testRaster) initFields 1 1 hex
  have hsx : sumXAt testRaster 1 1 = 1020 := by decide
  have hsy : sumYAt testRaster 1 1 = 0 := by decide
  refine ⟨hgx.trans hsx, hgy.trans hsy, ?_, ?_⟩
  · refine hmag.trans ?_
    show Real.sqrt ((sumXAt testRaster 1 1 : ℝ) * (sumXAt testRaster 1 1 : ℝ) +
      (sumYAt testRaster 1 1 : ℝ) * (sumYAt testRaster 1 1 : ℝ)) = 1020
    rw [hsx, hsy]
    push_cast
    rw [show (1020 : ℝ) * 1020 + 0 * 0 = 1020 ^ 2 by norm_num]
    exact Real.sqrt_sq (by norm_num)
  · refine hth.trans ?_
    show atan2 (sumYAt testRaster 1 1 : ℝ) (sumXAt testRaster 1 1 : ℝ) = 0
    rw [hsx, hsy]
    push_cast
    rw [show atan2 (0 : ℝ) 1020 = Real.arctan (0 / 1020) from if_pos (by norm_num)]
    rw [show (0 : ℝ) / 1020 = 0 by norm_num, Real.arctan_zero]

theorem foldl_min_replicate (c : ℝ) : ∀ m : Nat, List.foldl min c (List.replicate m c) = c
  | 0 => rfl
  | m + 1 => by
    rw [List.replicate_succ, List.foldl_cons, min_self]
    exact foldl_min_replicate c m

theorem foldl_max_replicate (c : ℝ) : ∀ m : Nat, List.foldl max c (List.replicate m c) = c
  | 0 => rfl
  | m + 1 => by
    rw [List.replicate_succ, List.foldl_cons, max_self]
    exact foldl_max_replicate c m

/-- C6: normalizing a field all of whose samples equal one constant c
produces an all-zero raster, for any c, through the explicit min = max
branch. -/
theorem normalize_const_all_zero (c : ℝ) (n : Nat) :
    normalize (List.replicate n c) = List.replicate n 0 := by
  cases n with
  | zero => simp [normalize]
  | succ m =>
    have hmn : List.foldl min ((List.replicate (m + 1) c).head?.getD 0) (List.replicate (m + 1) c)
        = c := by
      rw [List.replicate_succ, List.head?_cons, Option.getD_some, List.foldl_cons, min_self]
      exact foldl_min_replicate c m
    have hmx : List.foldl max ((List.replicate (m + 1) c).head?.getD 0) (List.replicate (m + 1) c)
        = c := by
      rw [List.replicate_succ, List.head?_cons, Option.getD_some, List.foldl_cons, max_self]
      exact foldl_max_replicate c m
    simp [normalize, hmn, hmx, List.map_replicate]

theorem spatial_small_noop_aux (r : Raster) (h : r.cols < 3 ∨ r.rows < 3) :
    computeSpatial r = initFields := by
  have hno : ∀ y x : Int, ¬ ∃ t ∈ quadTasks r, inClamped r t y x := by
    intro y x
    rintro ⟨t, -, h1, h2, h3, h4⟩
    omega
  refine Fields.ext ?_ ?_ ?_ ?_ <;> funext y x
  · exact runTasks_proj_not r projGx (valGx r) (writeCell_gx r)
      (quadTasks r) initFields y x (hno y x)
  · exact runTasks_proj_not r projGy (valGy r) (writeCell_gy r)
      (quadTasks r) initFields y x (hno y x)
  · exact runTasks_proj_not r projMag (valMag r) (writeCell_mag r)
      (quadTasks r) initFields y x (hno y x)
  · exact runTasks_proj_not r projTheta (valTheta r) (writeCell_theta r)
      (quadTasks r) initFields y x (hno y x)

/-- Counterexample for C7: at the concrete 2x2 raster the spatial
computation does not fail; it returns a field, namely the untouched
zero-initialized one. -/
theorem spatial_no_invalid_dimensions_failure :
    smallRaster.cols < 3 ∧ smallRaster.rows < 3 ∧ computeSpatial smallRaster = initFields :=
  ⟨by decide, by decide, spatial_small_noop_aux smallRaster (Or.inl (by decide))⟩

/-- C7 as amended: on a raster with width < 3 or height < 3 the spatial
computation performs no writes at all and returns the zero-initialized
fields unchanged; the code has no InvalidDimensions error path. -/
theorem spatial_small_returns_zero_fields (r : Raster) (h : r.cols < 3 ∨ r.rows < 3) :
    computeSpatial r = initFields :=
  spatial_small_noop_aux r h

/-- Witness for the amended C7 at the concrete 2x2 raster. -/
theorem spatial_small_returns_zero_fields_witness :
    computeSpatial smallRaster = initFields :=
  spatial_small_returns_zero_fields smallRaster (Or.inl (by decide))

/-- C8: after k successful advances from a window primed with source
frames 0, 1, 2, the window holds exactly the source frames k, k+1, k+2
as (prev, curr, next). -/
theorem window_advance_k (f : Nat → Raster) (k : Nat) :
    advanceK f k = ⟨f k, f (k + 1), f (k + 2)⟩ := by
  induction k with
  | zero => rfl
  | succ k ih =>
    show advance (advanceK f k) (f (k + 3)) = _
    rw [ih]
    rfl

/-- C9: priming over a source with fewer than three rasters fails with
InsufficientFrames and produces no window; over a source with at least
three frames it succeeds. -/
theorem prime_spec (fs : List Raster) :
    (fs.length < 3 → prime fs = Except.error SobelError.InsufficientFrames) ∧
    (3 ≤ fs.length → ∃ w, prime fs = Except.ok w) := by
  constructor
  · intro h
    match fs, h with
    | [], _ => rfl
    | [a], _ => rfl
    | [a, b], _ => rfl
  · intro h
    match fs, h with
    | a :: b :: c :: rest, _ => exact ⟨⟨a, b, c⟩, rfl⟩

/-- Witness for C9: a 2-frame source fails, a 3-frame source succeeds. -/
theorem prime_spec_witness :
    prime [testRaster, testRaster] = Except.error SobelError.InsufficientFrames ∧
    ∃ w, prime [testRaster, testRaster, testRaster] = Except.ok w :=
  ⟨(prime_spec [testRaster, testRaster]).1 (by decide),
    (prime_spec [testRaster, testRaster, testRaster]).2 (by decide)⟩

/-- C10: for any raster dimensions and any region bounds handed to a
worker, the clamping guarantees that every 3x3-neighborhood pixel read
inside the clamped region is in bounds: the out-of-bounds branch of the
pixel lookup is unreachable. -/
theorem clamp_reads_in_bounds (r : Raster) (t : SobelTask) (y x i j : Int)
    (h : inClamped r t y x) (hi1 : -1 ≤ i) (hi2 : i ≤ 1) (hj1 : -1 ≤ j) (hj2 : j ≤ 1) :
    (r.at? (y + j) (x + i)).isSome = true := by
  obtain ⟨h1, h2, h3, h4⟩ := h
  have hy1 : (1 : Int) ≤ y := le_trans (le_max_right t.y0 1) h1
  have hy2 : y < (r.rows : Int) - 1 := lt_of_lt_of_le h2 (min_le_right _ _)
  have hx1 : (1 : Int) ≤ x := le_trans (le_max_right t.x0 1) h3
  have hx2 : x < (r.cols : Int) - 1 := lt_of_lt_of_le h4 (min_le_right _ _)
  unfold Raster.at?
  rw [if_pos (by omega :
    0 ≤ y + j ∧ y + j < (r.rows : Int) ∧ 0 ≤ x + i ∧ x + i < (r.cols : Int))]
  rfl

/-- Witness for C10 at the test raster, the interior region, cell (1, 1)
and offsets i = j = 1. -/
theorem clamp_reads_in_bounds_witness :
    (testRaster.at? (1 + 1) (1 + 1)).isSome = true :=
  clamp_reads_in_bounds testRaster (interiorTask testRaster) 1 1 1 1 (by decide)
    (by decide) (by decide) (by decide) (by decide)

end Sobel
